import Mathlib

/-!
Verification of the integrated-gradients Attribution Engine described in
the repository specification.  The repository itself ships only a
demonstration notebook that calls the engine (`ig.explain`); the engine's
code is not part of the source tree, so the definitions below are modelled
from the specification's algorithm description (section 4.1) and settled
against that model.  Numeric values are exact rationals: the model works
in exact arithmetic, so statements the spec phrases "up to floating-point
tolerance" become exact equalities here.
-/

namespace IG

/-- Modelled from the spec: a fixed-shape numeric tensor.  The shape is the
list of dimension sizes; the data is the flattened list of entries (the
engine's operations are all elementwise, so the flattened view is faithful). -/
@[ext]
structure Tensor where
  shape : List Nat
  data : List ℚ
deriving Repr, DecidableEq

/-- Modelled from the spec: the all-zero tensor of a given shape, the default
baseline ("defaults to the all-zero tensor if not supplied"). -/
def Tensor.zeros (shape : List Nat) : Tensor :=
  ⟨shape, List.replicate shape.prod 0⟩

/-- The all-zero tensor with the same shape and entry count as `t`. -/
def Tensor.zerosLike (t : Tensor) : Tensor :=
  ⟨t.shape, t.data.map fun _ => 0⟩

/-- Elementwise addition. -/
def Tensor.add (a b : Tensor) : Tensor :=
  ⟨a.shape, List.zipWith (· + ·) a.data b.data⟩

/-- Elementwise subtraction. -/
def Tensor.sub (a b : Tensor) : Tensor :=
  ⟨a.shape, List.zipWith (· - ·) a.data b.data⟩

/-- Elementwise (Hadamard) product. -/
def Tensor.hadamard (a b : Tensor) : Tensor :=
  ⟨a.shape, List.zipWith (· * ·) a.data b.data⟩

/-- Scalar multiple. -/
def Tensor.smul (c : ℚ) (t : Tensor) : Tensor :=
  ⟨t.shape, t.data.map fun x => c * x⟩

/-- Sum of all entries of a tensor. -/
def Tensor.sum (t : Tensor) : ℚ :=
  t.data.sum

/-- A tensor is well formed when its flattened data has exactly as many
entries as its shape prescribes. -/
def Tensor.WellFormed (t : Tensor) : Prop :=
  t.data.length = t.shape.prod

/-- Modelled from the spec: the interpolated point `baseline + a * (input - baseline)`
(algorithm step 2). -/
def interpolate (baseline input : Tensor) (a : ℚ) : Tensor :=
  baseline.add (Tensor.smul a (input.sub baseline))

/-- Modelled from the spec: the uniform quadrature rule, "evenly spaced
coefficients with equal weights summing to 1" (right endpoints of `n` equal
subintervals of `[0,1]`, each with weight `1/n`). -/
def uniformPoints (n : Nat) : List (ℚ × ℚ) :=
  (List.range n).map fun i : Nat => (((i : ℚ) + 1) / (n : ℚ), 1 / (n : ℚ))

/-- Modelled from the spec (design note in section 9): a quadrature rule is a
pluggable strategy producing, for a step count, the interpolation
coefficients in `[0,1]` paired with their quadrature weights. -/
structure QuadMethod where
  points : Nat → List (ℚ × ℚ)

/-- The uniform quadrature method. -/
def uniform : QuadMethod :=
  ⟨uniformPoints⟩

/-- Modelled from the spec: a supported quadrature method produces, for every
step count `n ≥ 1`, exactly `n` coefficient/weight pairs, with coefficients
in `[0,1]` and weights summing to `1` (for the uniform rule by definition;
for Gauss-Legendre because the weights on `[-1,1]` sum to `2` and are rescaled
by the factor `0.5`). -/
def QuadMethod.Supported (m : QuadMethod) : Prop :=
  ∀ n, 1 ≤ n →
    (m.points n).length = n ∧
    ((m.points n).map Prod.snd).sum = 1 ∧
    ∀ p ∈ m.points n, 0 ≤ p.1 ∧ p.1 ≤ 1

/-- Modelled from the spec's error taxonomy (section 7): `InvalidArgument`
for bad arguments, `OracleFailure` wrapping, unchanged, any error value the
gradient oracle raised. -/
inductive IGError (ε : Type) where
  | invalidArgument (msg : String) : IGError ε
  | oracleFailure (e : ε) : IGError ε
deriving Repr, DecidableEq

/-- Modelled from the spec: the explanation returned by `explain` — the
attribution tensor, the convergence delta, and the echoed inputs for
traceability. -/
structure Explanation where
  attributions : Tensor
  delta : ℚ
  X : Tensor
  baselines : Tensor
  target : Nat
deriving Repr, DecidableEq

/-- Query the gradient oracle at every interpolated point in order,
propagating the first error unchanged (algorithm step 3; the engine
performs no retries). -/
def collectGrads {ε : Type} (grad : Tensor → Except ε Tensor) :
    List Tensor → Except ε (List Tensor)
  | [] => Except.ok []
  | p :: ps =>
    match grad p with
    | Except.error e => Except.error e
    | Except.ok g =>
      match collectGrads grad ps with
      | Except.error e => Except.error e
      | Except.ok gs => Except.ok (g :: gs)

/-- The weighted sum over steps of (gradient at point × weight)
(algorithm step 4). -/
def weightedGradSum (init : Tensor) (ws : List ℚ) (gs : List Tensor) : Tensor :=
  (List.zipWith Tensor.smul ws gs).foldl Tensor.add init

/-- Modelled from the spec: the Attribution Engine on an already-defaulted
baseline.  Validates the arguments, builds the interpolated path, queries
the gradient oracle, forms the attribution tensor as the weighted gradient
sum multiplied elementwise by `(input - baseline)`, and computes the
convergence delta (algorithm steps 1-5). -/
def explainCore {ε : Type} (score : Nat → Tensor → ℚ)
    (grad : Nat → Tensor → Except ε Tensor)
    (input base : Tensor) (target steps : Nat) (method : QuadMethod) :
    Except (IGError ε) Explanation :=
  if input.shape = base.shape then
    if 1 ≤ steps then
      match collectGrads (grad target)
          ((method.points steps).map fun p => interpolate base input p.1) with
      | Except.error e => Except.error (IGError.oracleFailure e)
      | Except.ok gs =>
        Except.ok ⟨Tensor.hadamard (weightedGradSum (Tensor.zerosLike input)
            ((method.points steps).map Prod.snd) gs) (input.sub base),
          score target input - score target base -
            (Tensor.hadamard (weightedGradSum (Tensor.zerosLike input)
              ((method.points steps).map Prod.snd) gs) (input.sub base)).sum,
          input, base, target⟩
    else Except.error (IGError.invalidArgument "steps must be a positive integer")
  else Except.error (IGError.invalidArgument "input and baseline must have identical shape")

/-- Modelled from the spec: `explain(input, baseline, target, steps, method)`.
A missing baseline defaults to the all-zero tensor of the input's shape. -/
def explain {ε : Type} (score : Nat → Tensor → ℚ)
    (grad : Nat → Tensor → Except ε Tensor)
    (input : Tensor) (baseline : Option Tensor) (target : Nat)
    (steps : Nat) (method : QuadMethod) : Except (IGError ε) Explanation :=
  explainCore score grad input (baseline.getD (Tensor.zeros input.shape))
    target steps method

/-- The scoring function "sum of all elements" from the spec's end-to-end
scenario (every class gets the same scalar score). -/
def sumScore : Nat → Tensor → ℚ :=
  fun _ t => t.data.sum

/-- The exact gradient oracle for `sumScore`: the all-ones tensor of the
queried point's shape. -/
def onesGrad : Nat → Tensor → Except Unit Tensor :=
  fun _ t => Except.ok ⟨t.shape, t.data.map fun _ => 1⟩

/-- A scoring function linear in the input: `score = dot(weights, input)`
(the spec's linearity sanity check). -/
def dotScore (w : Tensor) : Nat → Tensor → ℚ :=
  fun _ t => (List.zipWith (· * ·) w.data t.data).sum

/-- The exact gradient oracle for `dotScore w`: constantly `w`. -/
def dotGrad (w : Tensor) : Nat → Tensor → Except Unit Tensor :=
  fun _ _ => Except.ok w

/-- A gradient oracle that always fails, for exercising error propagation. -/
def failGrad : Nat → Tensor → Except String Tensor :=
  fun _ _ => Except.error "non-differentiable point"

lemma shape_interpolate (base input : Tensor) (a : ℚ) :
    (interpolate base input a).shape = base.shape := rfl

lemma length_interpolate (base input : Tensor) (a : ℚ)
    (h : base.data.length = input.data.length) :
    (interpolate base input a).data.length = input.data.length := by
  simp [interpolate, Tensor.add, Tensor.smul, Tensor.sub, List.length_zipWith, h]

lemma foldl_add_data (L : List Tensor) (init : Tensor) :
    (L.foldl Tensor.add init).data =
      (L.map Tensor.data).foldl (List.zipWith (· + ·)) init.data := by
  induction L generalizing init with
  | nil => rfl
  | cons t L ih =>
    rw [List.foldl_cons, List.map_cons, List.foldl_cons]
    exact ih (init.add t)

lemma foldl_add_shape (L : List Tensor) (init : Tensor) :
    (L.foldl Tensor.add init).shape = init.shape := by
  induction L generalizing init with
  | nil => rfl
  | cons t L ih =>
    rw [List.foldl_cons]
    exact ih (init.add t)

lemma foldl_add_length (L : List (List ℚ)) (z : List ℚ)
    (h : ∀ l ∈ L, l.length = z.length) :
    (L.foldl (List.zipWith (· + ·)) z).length = z.length := by
  induction L generalizing z with
  | nil => rfl
  | cons l L ih =>
    have hz : (List.zipWith (· + ·) z l).length = z.length := by
      simp [List.length_zipWith, h l (List.mem_cons_self l L)]
    rw [List.foldl_cons,
      ih (List.zipWith (· + ·) z l)
        (fun l' hl' => by rw [hz]; exact h l' (List.mem_cons_of_mem _ hl')), hz]

lemma foldl_wsum_const (g : List ℚ) (ws : List ℚ) (z : List ℚ) (h : g.length = z.length) :
    ((ws.map fun w => g.map fun x => w * x).foldl (List.zipWith (· + ·)) z)
      = List.zipWith (fun a b => a + ws.sum * b) z g := by
  induction ws generalizing z with
  | nil =>
    apply List.ext_getElem
    · simp [List.length_zipWith, h]
    · intro i h1 h2
      simp [List.getElem_zipWith]
  | cons w ws ih =>
    rw [List.map_cons, List.foldl_cons,
      ih (List.zipWith (· + ·) z (g.map fun x => w * x))
        (by simp [List.length_zipWith, h])]
    apply List.ext_getElem
    · simp [List.length_zipWith, h]
    · intro i h1 h2
      simp only [List.getElem_zipWith, List.getElem_map, List.sum_cons]
      ring

lemma zipWith_mul_sub (w a b : List ℚ) :
    List.zipWith (· * ·) w (List.zipWith (· - ·) a b)
      = List.zipWith (· - ·) (List.zipWith (· * ·) w a) (List.zipWith (· * ·) w b) := by
  apply List.ext_getElem
  · simp [List.length_zipWith]
    omega
  · intro i h1 h2
    simp only [List.getElem_zipWith]
    ring

lemma sum_zipWith_sub (A B : List ℚ) (h : A.length = B.length) :
    (List.zipWith (· - ·) A B).sum = A.sum - B.sum := by
  induction A generalizing B with
  | nil =>
    cases B with
    | nil => simp
    | cons y B => simp at h
  | cons x A ih =>
    cases B with
    | nil => simp at h
    | cons y B =>
      simp only [List.zipWith_cons_cons, List.sum_cons, ih B (by simpa using h)]
      ring

lemma zipWith_zero_add (z g : List ℚ) (h : g.length = z.length) :
    List.zipWith (fun a b => a + (1:ℚ) * b) (z.map fun _ => (0:ℚ)) g = g := by
  apply List.ext_getElem
  · simp [List.length_zipWith, h]
  · intro i h1 h2
    simp [List.getElem_zipWith]

lemma collectGrads_map_ok {ε : Type} (grad : Tensor → Except ε Tensor) (f : Tensor → Tensor)
    (ps : List Tensor) (h : ∀ p ∈ ps, grad p = Except.ok (f p)) :
    collectGrads grad ps = Except.ok (ps.map f) := by
  induction ps with
  | nil => rfl
  | cons p ps ih =>
    simp only [collectGrads, h p (List.mem_cons_self p ps),
      ih (fun q hq => h q (List.mem_cons_of_mem _ hq)), List.map_cons]

lemma collectGrads_ok_of_forall {ε : Type} (grad : Tensor → Except ε Tensor)
    (ps : List Tensor) (h : ∀ p ∈ ps, ∃ g, grad p = Except.ok g) :
    ∃ gs, collectGrads grad ps = Except.ok gs := by
  induction ps with
  | nil => exact ⟨[], rfl⟩
  | cons p ps ih =>
    obtain ⟨g, hg⟩ := h p (List.mem_cons_self p ps)
    obtain ⟨gs, hgs⟩ := ih fun q hq => h q (List.mem_cons_of_mem _ hq)
    exact ⟨g :: gs, by simp only [collectGrads, hg, hgs]⟩

lemma collectGrads_length {ε : Type} (grad : Tensor → Except ε Tensor)
    (ps gs : List Tensor) (n : Nat)
    (hp : ∀ p ∈ ps, p.data.length = n)
    (hc : ∀ p ∈ ps, ∀ q, grad p = Except.ok q → q.data.length = p.data.length)
    (h : collectGrads grad ps = Except.ok gs) :
    ∀ g ∈ gs, g.data.length = n := by
  induction ps generalizing gs with
  | nil =>
    simp only [collectGrads, Except.ok.injEq] at h
    subst h
    simp
  | cons p ps ih =>
    simp only [collectGrads] at h
    cases hg : grad p with
    | error e => rw [hg] at h; simp at h
    | ok q =>
      rw [hg] at h
      cases hr : collectGrads grad ps with
      | error e => rw [hr] at h; simp at h
      | ok gs' =>
        rw [hr] at h
        simp only [Except.ok.injEq] at h
        subst h
        intro g hgmem
        rcases List.mem_cons.mp hgmem with rfl | hmem
        · rw [hc p (List.mem_cons_self p ps) g hg]
          exact hp p (List.mem_cons_self p ps)
        · exact ih gs' (fun r hr2 => hp r (List.mem_cons_of_mem _ hr2))
            (fun r hr2 => hc r (List.mem_cons_of_mem _ hr2)) hr g hmem

lemma weightedGradSum_shape (init : Tensor) (ws : List ℚ) (gs : List Tensor) :
    (weightedGradSum init ws gs).shape = init.shape :=
  foldl_add_shape _ _

lemma weightedGradSum_length (init : Tensor) (ws : List ℚ) (gs : List Tensor)
    (h : ∀ g ∈ gs, g.data.length = init.data.length) :
    (weightedGradSum init ws gs).data.length = init.data.length := by
  unfold weightedGradSum
  rw [foldl_add_data]
  apply foldl_add_length
  intro l hl
  rw [List.mem_map] at hl
  obtain ⟨t, ht, rfl⟩ := hl
  induction ws generalizing gs with
  | nil => simp at ht
  | cons w ws ih =>
    cases gs with
    | nil => simp at ht
    | cons g gs =>
      rw [List.zipWith_cons_cons] at ht
      rcases List.mem_cons.mp ht with rfl | hmem
      · simp [Tensor.smul, h g (List.mem_cons_self g gs)]
      · exact ih gs (fun g' hg' => h g' (List.mem_cons_of_mem _ hg')) hmem

lemma weightedGradSum_map_const (init g : Tensor) (ws : List ℚ)
    (h : g.data.length = init.data.length) :
    weightedGradSum init ws (ws.map fun _ => g)
      = ⟨init.shape, List.zipWith (fun a b => a + ws.sum * b) init.data g.data⟩ := by
  unfold weightedGradSum
  have h1 : List.zipWith Tensor.smul ws (ws.map fun _ => g)
      = ws.map fun w => Tensor.smul w g := by
    rw [List.zipWith_map_right, List.zipWith_same]
  rw [h1]
  apply Tensor.ext
  · rw [foldl_add_shape]
  · rw [foldl_add_data, List.map_map]
    exact foldl_wsum_const g.data ws init.data h

lemma explain_eq_core {ε : Type} (score : Nat → Tensor → ℚ)
    (grad : Nat → Tensor → Except ε Tensor) (input : Tensor) (baseline : Option Tensor)
    (target steps : Nat) (m : QuadMethod) :
    explain score grad input baseline target steps m =
      explainCore score grad input (baseline.getD (Tensor.zeros input.shape))
        target steps m := rfl

lemma explain_some_eq_core {ε : Type} (score : Nat → Tensor → ℚ)
    (grad : Nat → Tensor → Except ε Tensor) (input base : Tensor)
    (target steps : Nat) (m : QuadMethod) :
    explain score grad input (some base) target steps m =
      explainCore score grad input base target steps m := rfl

lemma explainCore_shape_mismatch {ε : Type} (score : Nat → Tensor → ℚ)
    (grad : Nat → Tensor → Except ε Tensor) (input base : Tensor)
    (target steps : Nat) (m : QuadMethod) (h : ¬ input.shape = base.shape) :
    explainCore score grad input base target steps m =
      Except.error (IGError.invalidArgument "input and baseline must have identical shape") := by
  unfold explainCore
  rw [if_neg h]

lemma explainCore_bad_steps {ε : Type} (score : Nat → Tensor → ℚ)
    (grad : Nat → Tensor → Except ε Tensor) (input base : Tensor)
    (target steps : Nat) (m : QuadMethod) (h1 : input.shape = base.shape)
    (h2 : ¬ 1 ≤ steps) :
    explainCore score grad input base target steps m =
      Except.error (IGError.invalidArgument "steps must be a positive integer") := by
  unfold explainCore
  rw [if_pos h1, if_neg h2]

lemma explainCore_oracle_error {ε : Type} (score : Nat → Tensor → ℚ)
    (grad : Nat → Tensor → Except ε Tensor) (input base : Tensor)
    (target steps : Nat) (m : QuadMethod) (e : ε)
    (h1 : input.shape = base.shape) (h2 : 1 ≤ steps)
    (hcg : collectGrads (grad target)
        ((m.points steps).map fun p => interpolate base input p.1) = Except.error e) :
    explainCore score grad input base target steps m =
      Except.error (IGError.oracleFailure e) := by
  unfold explainCore
  rw [if_pos h1, if_pos h2, hcg]

lemma explainCore_ok {ε : Type} (score : Nat → Tensor → ℚ)
    (grad : Nat → Tensor → Except ε Tensor) (input base : Tensor)
    (target steps : Nat) (m : QuadMethod) (gs : List Tensor)
    (h1 : input.shape = base.shape) (h2 : 1 ≤ steps)
    (hcg : collectGrads (grad target)
        ((m.points steps).map fun p => interpolate base input p.1) = Except.ok gs) :
    explainCore score grad input base target steps m =
      Except.ok ⟨Tensor.hadamard (weightedGradSum (Tensor.zerosLike input)
          ((m.points steps).map Prod.snd) gs) (input.sub base),
        score target input - score target base -
          (Tensor.hadamard (weightedGradSum (Tensor.zerosLike input)
            ((m.points steps).map Prod.snd) gs) (input.sub base)).sum,
        input, base, target⟩ := by
  unfold explainCore
  rw [if_pos h1, if_pos h2, hcg]

lemma explainCore_cases {ε : Type} (score : Nat → Tensor → ℚ)
    (grad : Nat → Tensor → Except ε Tensor) (input base : Tensor)
    (target steps : Nat) (m : QuadMethod) :
    (¬ input.shape = base.shape ∧ explainCore score grad input base target steps m
        = Except.error (IGError.invalidArgument "input and baseline must have identical shape")) ∨
    (input.shape = base.shape ∧ ¬ 1 ≤ steps ∧
      explainCore score grad input base target steps m
        = Except.error (IGError.invalidArgument "steps must be a positive integer")) ∨
    (input.shape = base.shape ∧ 1 ≤ steps ∧
      ∃ e, collectGrads (grad target)
          ((m.points steps).map fun p => interpolate base input p.1) = Except.error e ∧
        explainCore score grad input base target steps m
          = Except.error (IGError.oracleFailure e)) ∨
    (input.shape = base.shape ∧ 1 ≤ steps ∧
      ∃ gs, collectGrads (grad target)
          ((m.points steps).map fun p => interpolate base input p.1) = Except.ok gs ∧
        explainCore score grad input base target steps m
          = Except.ok ⟨Tensor.hadamard (weightedGradSum (Tensor.zerosLike input)
              ((m.points steps).map Prod.snd) gs) (input.sub base),
            score target input - score target base -
              (Tensor.hadamard (weightedGradSum (Tensor.zerosLike input)
                ((m.points steps).map Prod.snd) gs) (input.sub base)).sum,
            input, base, target⟩) := by
  by_cases h1 : input.shape = base.shape
  · by_cases h2 : 1 ≤ steps
    · cases hcg : collectGrads (grad target)
        ((m.points steps).map fun p => interpolate base input p.1) with
      | error e =>
        exact Or.inr (Or.inr (Or.inl ⟨h1, h2, e, rfl,
          explainCore_oracle_error score grad input base target steps m e h1 h2 hcg⟩))
      | ok gs =>
        exact Or.inr (Or.inr (Or.inr ⟨h1, h2, gs, rfl,
          explainCore_ok score grad input base target steps m gs h1 h2 hcg⟩))
    · exact Or.inr (Or.inl ⟨h1, h2,
        explainCore_bad_steps score grad input base target steps m h1 h2⟩)
  · exact Or.inl ⟨h1, explainCore_shape_mismatch score grad input base target steps m h1⟩

lemma explainCore_const_grad {ε : Type} (score : Nat → Tensor → ℚ)
    (grad : Nat → Tensor → Except ε Tensor) (input base g : Tensor)
    (target steps : Nat) (m : QuadMethod)
    (hshape : input.shape = base.shape)
    (hsteps : 1 ≤ steps)
    (hw : ((m.points steps).map Prod.snd).sum = 1)
    (hglen : g.data.length = input.data.length)
    (hblen : base.data.length = input.data.length)
    (hg : ∀ p : Tensor, p.shape = base.shape → p.data.length = input.data.length →
      grad target p = Except.ok g) :
    explainCore score grad input base target steps m =
      Except.ok ⟨⟨input.shape, List.zipWith (· * ·) g.data (input.sub base).data⟩,
        score target input - score target base
          - (List.zipWith (· * ·) g.data (input.sub base).data).sum,
        input, base, target⟩ := by
  have hcg : collectGrads (grad target)
      ((m.points steps).map fun p => interpolate base input p.1)
      = Except.ok (((m.points steps).map fun p => interpolate base input p.1).map
          fun _ => g) := by
    apply collectGrads_map_ok
    intro p hp
    rw [List.mem_map] at hp
    obtain ⟨q, hq, rfl⟩ := hp
    exact hg _ (shape_interpolate _ _ _) (length_interpolate _ _ _ hblen)
  rw [explainCore_ok score grad input base target steps m _ hshape hsteps hcg]
  have hmaps : (((m.points steps).map fun p => interpolate base input p.1).map fun _ => g)
      = ((m.points steps).map Prod.snd).map fun _ => g := by
    simp only [List.map_map]
    rfl
  rw [hmaps, weightedGradSum_map_const (Tensor.zerosLike input) g
    ((m.points steps).map Prod.snd) (by simpa [Tensor.zerosLike] using hglen), hw]
  have hz : List.zipWith (fun a b => a + (1:ℚ) * b) (Tensor.zerosLike input).data g.data
      = g.data := by
    have := zipWith_zero_add input.data g.data hglen
    simpa [Tensor.zerosLike] using this
  rw [hz]
  rfl

lemma uniform_supported : uniform.Supported := by
  intro n hn
  refine ⟨?_, ?_, ?_⟩
  · show (uniformPoints n).length = n
    rw [uniformPoints, List.length_map, List.length_range]
  · have hmap : ((uniformPoints n).map Prod.snd) = (List.range n).map fun _ => (1:ℚ) / n := by
      rw [uniformPoints, List.map_map]
      rfl
    have hn0 : (n : ℚ) ≠ 0 := Nat.cast_ne_zero.mpr (by omega)
    show ((uniformPoints n).map Prod.snd).sum = 1
    rw [hmap, List.map_const', List.sum_replicate, List.length_range, nsmul_eq_mul]
    field_simp
  · intro p hp
    simp only [uniform, uniformPoints, List.mem_map, List.mem_range] at hp
    obtain ⟨i, hi, rfl⟩ := hp
    constructor
    · apply div_nonneg <;> positivity
    · rw [div_le_one (by positivity)]
      have hle : i + 1 ≤ n := hi
      exact_mod_cast hle

/-- C1: for input `[[1,2],[3,4]]`, baseline `[[0,0],[0,0]]`, scoring function the
sum of all elements (with its exact gradient oracle), `steps = 10` and any
supported quadrature method, `explain` returns the attribution tensor
`[[1,2],[3,4]]` and convergence delta `0` (exact arithmetic, so the
floating-point tolerance of the spec is met exactly). -/
theorem explain_end_to_end_2x2 (m : QuadMethod) (hm : m.Supported) :
    explain sumScore onesGrad (Tensor.mk [2,2] [1,2,3,4])
        (some (Tensor.mk [2,2] [0,0,0,0])) 0 10 m =
      Except.ok ⟨Tensor.mk [2,2] [1,2,3,4], 0, Tensor.mk [2,2] [1,2,3,4],
        Tensor.mk [2,2] [0,0,0,0], 0⟩ := by
  rw [explain_some_eq_core]
  rw [explainCore_const_grad sumScore onesGrad (Tensor.mk [2,2] [1,2,3,4])
    (Tensor.mk [2,2] [0,0,0,0]) (Tensor.mk [2,2] [1,1,1,1]) 0 10 m rfl (by norm_num)
    (hm 10 (by norm_num)).2.1 rfl rfl ?_]
  · simp only [Tensor.sub, sumScore, Tensor.sum, List.zipWith_cons_cons,
      List.zipWith_nil_right, Except.ok.injEq, Explanation.mk.injEq, Tensor.mk.injEq]
    norm_num
  · intro p hps hpl
    show Except.ok (Tensor.mk p.shape (p.data.map fun _ => (1:ℚ)))
      = Except.ok (Tensor.mk [2,2] [1,1,1,1])
    rw [List.map_const', hpl, hps]
    rfl

/-- Witness instance of the end-to-end scenario at the uniform quadrature
method. -/
theorem explain_end_to_end_2x2_witness :
    explain sumScore onesGrad (Tensor.mk [2,2] [1,2,3,4])
        (some (Tensor.mk [2,2] [0,0,0,0])) 0 10 uniform =
      Except.ok ⟨Tensor.mk [2,2] [1,2,3,4], 0, Tensor.mk [2,2] [1,2,3,4],
        Tensor.mk [2,2] [0,0,0,0], 0⟩ :=
  explain_end_to_end_2x2 uniform uniform_supported

/-- C2: for a scoring function linear in the input (`score = dot(weights, input)`)
with its exact (constant) gradient oracle, any input/baseline pair of the same
shape and size, any `steps ≥ 1` and any supported quadrature method, `explain`
returns attributions exactly `weights * (input - baseline)` — independent of
`steps` — and convergence delta exactly `0`. -/
theorem explain_linear_score (w input base : Tensor) (target steps : Nat)
    (m : QuadMethod) (hm : m.Supported) (hsteps : 1 ≤ steps)
    (hshape : input.shape = base.shape) (hwshape : w.shape = input.shape)
    (hwlen : w.data.length = input.data.length)
    (hblen : base.data.length = input.data.length) :
    explain (dotScore w) (dotGrad w) input (some base) target steps m =
      Except.ok ⟨w.hadamard (input.sub base), 0, input, base, target⟩ := by
  rw [explain_some_eq_core]
  rw [explainCore_const_grad (dotScore w) (dotGrad w) input base w target steps m
    hshape hsteps (hm steps hsteps).2.1 hwlen hblen (fun p _ _ => rfl)]
  have hattr : (Tensor.mk input.shape
      (List.zipWith (· * ·) w.data (input.sub base).data))
      = w.hadamard (input.sub base) := by
    apply Tensor.ext
    · exact hwshape.symm
    · rfl
  have hdelta : dotScore w target input - dotScore w target base
      - (List.zipWith (· * ·) w.data (input.sub base).data).sum = 0 := by
    show (List.zipWith (· * ·) w.data input.data).sum
      - (List.zipWith (· * ·) w.data base.data).sum
      - (List.zipWith (· * ·) w.data (List.zipWith (· - ·) input.data base.data)).sum = 0
    rw [zipWith_mul_sub, sum_zipWith_sub _ _ (by
      simp [List.length_zipWith, hwlen, hblen])]
    ring
  rw [hattr, hdelta]

/-- Witness instance of the linearity check at concrete weights, input,
baseline and the uniform quadrature method with 7 steps. -/
theorem explain_linear_score_witness :
    explain (dotScore (Tensor.mk [2,2] [2,-1,0,5])) (dotGrad (Tensor.mk [2,2] [2,-1,0,5]))
        (Tensor.mk [2,2] [1,2,3,4]) (some (Tensor.mk [2,2] [1,1,1,1])) 0 7 uniform =
      Except.ok ⟨(Tensor.mk [2,2] [2,-1,0,5]).hadamard
          ((Tensor.mk [2,2] [1,2,3,4]).sub (Tensor.mk [2,2] [1,1,1,1])), 0,
        Tensor.mk [2,2] [1,2,3,4], Tensor.mk [2,2] [1,1,1,1], 0⟩ :=
  explain_linear_score (Tensor.mk [2,2] [2,-1,0,5]) (Tensor.mk [2,2] [1,2,3,4])
    (Tensor.mk [2,2] [1,1,1,1]) 0 7 uniform uniform_supported (by norm_num)
    rfl rfl rfl rfl

/-- C3: when the baseline equals the input (zero-length path), for every
scoring function, every `steps ≥ 1` and every quadrature method, `explain`
succeeds (given a gradient oracle that answers on the path with
same-sized gradients) and returns the all-zero attribution tensor. -/
theorem explain_baseline_eq_input {ε : Type} (score : Nat → Tensor → ℚ)
    (grad : Nat → Tensor → Except ε Tensor) (input : Tensor)
    (target steps : Nat) (m : QuadMethod) (hsteps : 1 ≤ steps)
    (horacle : ∀ p : Tensor, p.data.length = input.data.length →
      ∃ g, grad target p = Except.ok g ∧ g.data.length = p.data.length) :
    ∃ e, explain score grad input (some input) target steps m = Except.ok e ∧
      e.attributions = Tensor.zerosLike input := by
  have hlen : ∀ p ∈ (m.points steps).map (fun p => interpolate input input p.1),
      p.data.length = input.data.length := by
    intro p hp
    rw [List.mem_map] at hp
    obtain ⟨q, hq, rfl⟩ := hp
    exact length_interpolate _ _ _ rfl
  obtain ⟨gs, hgs⟩ := collectGrads_ok_of_forall (grad target) _
    fun p hp => (horacle p (hlen p hp)).imp fun g hg => hg.1
  have hglen : ∀ g ∈ gs, g.data.length = input.data.length := by
    apply collectGrads_length (grad target) _ gs input.data.length hlen _ hgs
    intro p hp q hq
    obtain ⟨g0, hg0, hlen0⟩ := horacle p (hlen p hp)
    rw [hg0] at hq
    cases hq
    exact hlen0
  refine ⟨_, explainCore_ok score grad input input target steps m gs rfl hsteps hgs, ?_⟩
  have hwlen : (weightedGradSum (Tensor.zerosLike input)
      ((m.points steps).map Prod.snd) gs).data.length = input.data.length := by
    have h := weightedGradSum_length (Tensor.zerosLike input)
      ((m.points steps).map Prod.snd) gs (by simpa [Tensor.zerosLike] using hglen)
    simpa [Tensor.zerosLike] using h
  apply Tensor.ext
  · have h := weightedGradSum_shape (Tensor.zerosLike input)
      ((m.points steps).map Prod.snd) gs
    simpa [Tensor.hadamard, Tensor.zerosLike] using h
  · apply List.ext_getElem
    · show (List.zipWith (· * ·)
          (weightedGradSum (Tensor.zerosLike input) ((m.points steps).map Prod.snd) gs).data
          (List.zipWith (· - ·) input.data input.data)).length
        = (Tensor.zerosLike input).data.length
      rw [List.length_zipWith, List.length_zipWith, hwlen]
      simp [Tensor.zerosLike]
    · intro i h1 h2
      simp [Tensor.hadamard, Tensor.sub, Tensor.zerosLike, List.getElem_zipWith]

/-- Witness instance of the zero-length path property at a concrete input. -/
theorem explain_baseline_eq_input_witness :
    ∃ e, explain sumScore onesGrad (Tensor.mk [2,2] [1,2,3,4])
        (some (Tensor.mk [2,2] [1,2,3,4])) 0 1 uniform = Except.ok e ∧
      e.attributions = Tensor.zerosLike (Tensor.mk [2,2] [1,2,3,4]) :=
  explain_baseline_eq_input sumScore onesGrad (Tensor.mk [2,2] [1,2,3,4]) 0 1 uniform
    (by norm_num)
    (fun p _ => ⟨Tensor.mk p.shape (p.data.map fun _ => 1), rfl, by simp⟩)

/-- C7: calling `explain` with no baseline behaves exactly as calling it with
the all-zero tensor of the input's shape: the whole result (attributions and
convergence delta included) is the same. -/
theorem explain_default_baseline {ε : Type} (score : Nat → Tensor → ℚ)
    (grad : Nat → Tensor → Except ε Tensor) (input : Tensor)
    (target steps : Nat) (m : QuadMethod) :
    explain score grad input none target steps m =
      explain score grad input (some (Tensor.zeros input.shape)) target steps m := rfl

/-- C4: for every successful call, the returned convergence delta equals the
scoring function at the echoed input, minus the scoring function at the echoed
baseline, minus the sum of all elements of the returned attribution tensor;
and a call can only fail with `InvalidArgument` or an oracle failure — the
magnitude of the delta is a diagnostic and never a failure cause. -/
theorem explain_delta_diagnostic {ε : Type} (score : Nat → Tensor → ℚ)
    (grad : Nat → Tensor → Except ε Tensor) (input : Tensor) (baseline : Option Tensor)
    (target steps : Nat) (m : QuadMethod) :
    (∀ e, explain score grad input baseline target steps m = Except.ok e →
      e.delta = score target e.X - score target e.baselines - e.attributions.sum) ∧
    (∀ err, explain score grad input baseline target steps m = Except.error err →
      (∃ msg, err = IGError.invalidArgument msg) ∨ ∃ f, err = IGError.oracleFailure f) := by
  constructor
  · intro e he
    rw [explain_eq_core] at he
    rcases explainCore_cases score grad input (baseline.getD (Tensor.zeros input.shape))
        target steps m with
      ⟨h1, heq⟩ | ⟨h1, h2, heq⟩ | ⟨h1, h2, f, hcg, heq⟩ | ⟨h1, h2, gs, hcg, heq⟩ <;>
      rw [heq] at he
    · simp at he
    · simp at he
    · simp at he
    · simp only [Except.ok.injEq] at he
      subst he
      rfl
  · intro err herr
    rw [explain_eq_core] at herr
    rcases explainCore_cases score grad input (baseline.getD (Tensor.zeros input.shape))
        target steps m with
      ⟨h1, heq⟩ | ⟨h1, h2, heq⟩ | ⟨h1, h2, f, hcg, heq⟩ | ⟨h1, h2, gs, hcg, heq⟩ <;>
      rw [heq] at herr
    · simp only [Except.error.injEq] at herr
      exact Or.inl ⟨_, herr.symm⟩
    · simp only [Except.error.injEq] at herr
      exact Or.inl ⟨_, herr.symm⟩
    · simp only [Except.error.injEq] at herr
      exact Or.inr ⟨f, herr.symm⟩
    · simp at herr

/-- Witness instance of the delta formula on a concrete successful call. -/
theorem explain_delta_diagnostic_witness :
    (Explanation.mk (Tensor.mk [2] [3,4]) 0 (Tensor.mk [2] [3,4])
        (Tensor.mk [2] [0,0]) 0).delta
      = sumScore 0 (Explanation.mk (Tensor.mk [2] [3,4]) 0 (Tensor.mk [2] [3,4])
          (Tensor.mk [2] [0,0]) 0).X
        - sumScore 0 (Explanation.mk (Tensor.mk [2] [3,4]) 0 (Tensor.mk [2] [3,4])
            (Tensor.mk [2] [0,0]) 0).baselines
        - (Explanation.mk (Tensor.mk [2] [3,4]) 0 (Tensor.mk [2] [3,4])
            (Tensor.mk [2] [0,0]) 0).attributions.sum :=
  (explain_delta_diagnostic sumScore onesGrad (Tensor.mk [2] [3,4]) none 0 1 uniform).1
    (Explanation.mk (Tensor.mk [2] [3,4]) 0 (Tensor.mk [2] [3,4]) (Tensor.mk [2] [0,0]) 0)
    (by simp [explain, explainCore, uniform, uniformPoints, List.range_succ, interpolate,
        Tensor.add, Tensor.sub, Tensor.smul, Tensor.zeros, Tensor.zerosLike, Tensor.hadamard,
        Tensor.sum, collectGrads, weightedGradSum, sumScore, onesGrad]
        try norm_num)

/-- C5: for every valid call (well-formed input and baseline tensors of equal
shape) that succeeds, the returned attribution tensor has exactly the input's
shape, and as many entries as the input (the gradient oracle returning
same-sized gradients, as its contract requires). -/
theorem explain_shape_invariant {ε : Type} (score : Nat → Tensor → ℚ)
    (grad : Nat → Tensor → Except ε Tensor) (input : Tensor) (baseline : Option Tensor)
    (target steps : Nat) (m : QuadMethod)
    (hwf : input.WellFormed)
    (hwfb : ∀ b ∈ baseline, b.WellFormed)
    (hcontract : ∀ p q, grad target p = Except.ok q → q.data.length = p.data.length)
    (e : Explanation)
    (h : explain score grad input baseline target steps m = Except.ok e) :
    e.attributions.shape = input.shape ∧
      e.attributions.data.length = input.data.length := by
  rw [explain_eq_core] at h
  have hbwf : (baseline.getD (Tensor.zeros input.shape)).WellFormed := by
    cases baseline with
    | none => simp [Option.getD, Tensor.zeros, Tensor.WellFormed]
    | some b => simpa using hwfb b rfl
  rcases explainCore_cases score grad input (baseline.getD (Tensor.zeros input.shape))
      target steps m with
    ⟨h1, heq⟩ | ⟨h1, h2, heq⟩ | ⟨h1, h2, f, hcg, heq⟩ | ⟨h1, h2, gs, hcg, heq⟩ <;>
    rw [heq] at h
  · simp at h
  · simp at h
  · simp at h
  · simp only [Except.ok.injEq] at h
    subst h
    have hblen : (baseline.getD (Tensor.zeros input.shape)).data.length
        = input.data.length := by
      unfold Tensor.WellFormed at hbwf hwf
      rw [hbwf, ← h1]
      exact hwf.symm
    have hps : ∀ p ∈ (m.points steps).map
        (fun p => interpolate (baseline.getD (Tensor.zeros input.shape)) input p.1),
        p.data.length = input.data.length := by
      intro p hp
      rw [List.mem_map] at hp
      obtain ⟨q, hq, rfl⟩ := hp
      exact length_interpolate _ _ _ hblen
    have hglen : ∀ g ∈ gs, g.data.length = input.data.length :=
      collectGrads_length (grad target) _ gs input.data.length hps
        (fun p _ q hq => hcontract p q hq) hcg
    have hwlen : (weightedGradSum (Tensor.zerosLike input)
        ((m.points steps).map Prod.snd) gs).data.length = input.data.length := by
      have hl := weightedGradSum_length (Tensor.zerosLike input)
        ((m.points steps).map Prod.snd) gs (by simpa [Tensor.zerosLike] using hglen)
      simpa [Tensor.zerosLike] using hl
    constructor
    · have hs := weightedGradSum_shape (Tensor.zerosLike input)
        ((m.points steps).map Prod.snd) gs
      simpa [Tensor.hadamard, Tensor.zerosLike] using hs
    · show (List.zipWith (· * ·)
          (weightedGradSum (Tensor.zerosLike input) ((m.points steps).map Prod.snd) gs).data
          (input.sub (baseline.getD (Tensor.zeros input.shape))).data).length
        = input.data.length
      rw [List.length_zipWith, hwlen]
      simp [Tensor.sub, List.length_zipWith, hblen]

/-- Witness instance of the shape invariant at a concrete successful call. -/
theorem explain_shape_invariant_witness :
    (Tensor.mk [2,2] [0,1,2,3]).shape = (Tensor.mk [2,2] [1,2,3,4]).shape ∧
      (Tensor.mk [2,2] [0,1,2,3]).data.length = (Tensor.mk [2,2] [1,2,3,4]).data.length :=
  explain_shape_invariant sumScore onesGrad (Tensor.mk [2,2] [1,2,3,4])
    (some (Tensor.mk [2,2] [1,1,1,1])) 0 2 uniform (by rfl)
    (by intro b hb; simp only [Option.mem_def, Option.some.injEq] at hb; subst hb; rfl)
    (by intro p q hq
        simp only [onesGrad, Except.ok.injEq] at hq
        subst hq
        simp)
    (Explanation.mk (Tensor.mk [2,2] [0,1,2,3]) 0 (Tensor.mk [2,2] [1,2,3,4])
      (Tensor.mk [2,2] [1,1,1,1]) 0)
    (by simp [explain, explainCore, uniform, uniformPoints, List.range_succ, interpolate,
        Tensor.add, Tensor.sub, Tensor.smul, Tensor.zeros, Tensor.zerosLike, Tensor.hadamard,
        Tensor.sum, collectGrads, weightedGradSum, sumScore, onesGrad]
        try norm_num)

/-- C6: `explain` fails with `InvalidArgument` exactly when the input and the
(defaulted) baseline have different shapes or `steps` is zero; with equal
shapes and `steps ≥ 1` it never raises `InvalidArgument`. -/
theorem explain_invalidArgument_iff {ε : Type} (score : Nat → Tensor → ℚ)
    (grad : Nat → Tensor → Except ε Tensor) (input : Tensor) (baseline : Option Tensor)
    (target steps : Nat) (m : QuadMethod) :
    (∃ msg, explain score grad input baseline target steps m
        = Except.error (IGError.invalidArgument msg)) ↔
      (input.shape ≠ (baseline.getD (Tensor.zeros input.shape)).shape ∨ steps = 0) := by
  rw [explain_eq_core]
  constructor
  · rintro ⟨msg, hmsg⟩
    by_contra hcon
    push_neg at hcon
    obtain ⟨hsh, hst⟩ := hcon
    have h2 : 1 ≤ steps := Nat.one_le_iff_ne_zero.mpr hst
    rcases explainCore_cases score grad input (baseline.getD (Tensor.zeros input.shape))
        target steps m with
      ⟨h1, heq⟩ | ⟨h1, hs, heq⟩ | ⟨h1, hs, f, hcg, heq⟩ | ⟨h1, hs, gs, hcg, heq⟩ <;>
      rw [heq] at hmsg
    · exact h1 hsh
    · exact hs h2
    · simp at hmsg
    · simp at hmsg
  · intro h
    by_cases h1 : input.shape = (baseline.getD (Tensor.zeros input.shape)).shape
    · have hst : steps = 0 := by tauto
      exact ⟨"steps must be a positive integer",
        explainCore_bad_steps score grad input _ target steps m h1 (by omega)⟩
    · exact ⟨"input and baseline must have identical shape",
        explainCore_shape_mismatch score grad input _ target steps m h1⟩

/-- C8: `explain` fails with `OracleFailure f` exactly when the arguments are
valid and the pass over the interpolated points hits `f` as the first gradient
oracle error: the oracle's error value is propagated unchanged, with no retry
and no substituted result, and no oracle error is silently swallowed. -/
theorem explain_oracle_propagation {ε : Type} (score : Nat → Tensor → ℚ)
    (grad : Nat → Tensor → Except ε Tensor) (input : Tensor) (baseline : Option Tensor)
    (target steps : Nat) (m : QuadMethod) (f : ε) :
    explain score grad input baseline target steps m
        = Except.error (IGError.oracleFailure f) ↔
      (input.shape = (baseline.getD (Tensor.zeros input.shape)).shape ∧ 1 ≤ steps ∧
        collectGrads (grad target) ((m.points steps).map fun p =>
            interpolate (baseline.getD (Tensor.zeros input.shape)) input p.1)
          = Except.error f) := by
  rw [explain_eq_core]
  constructor
  · intro h
    rcases explainCore_cases score grad input (baseline.getD (Tensor.zeros input.shape))
        target steps m with
      ⟨h1, heq⟩ | ⟨h1, h2, heq⟩ | ⟨h1, h2, e, hcg, heq⟩ | ⟨h1, h2, gs, hcg, heq⟩ <;>
      rw [heq] at h
    · simp at h
    · simp at h
    · simp only [Except.error.injEq, IGError.oracleFailure.injEq] at h
      subst h
      exact ⟨h1, h2, hcg⟩
    · simp at h
  · rintro ⟨h1, h2, hcg⟩
    exact explainCore_oracle_error score grad input _ target steps m f h1 h2 hcg

/-- C10: in every valid successful call, at every position where the input
value equals the (defaulted) baseline value, the returned attribution is
exactly zero, because the weighted gradient sum is multiplied elementwise
by `(input - baseline)`. -/
theorem explain_zero_attribution_at_unchanged {ε : Type} (score : Nat → Tensor → ℚ)
    (grad : Nat → Tensor → Except ε Tensor) (input : Tensor) (baseline : Option Tensor)
    (target steps : Nat) (m : QuadMethod)
    (hwf : input.WellFormed)
    (hwfb : ∀ b ∈ baseline, b.WellFormed)
    (hcontract : ∀ p q, grad target p = Except.ok q → q.data.length = p.data.length)
    (e : Explanation)
    (h : explain score grad input baseline target steps m = Except.ok e)
    (j : Nat) (hj : j < input.data.length)
    (heq : input.data[j]? = (baseline.getD (Tensor.zeros input.shape)).data[j]?) :
    e.attributions.data[j]? = some 0 := by
  rw [explain_eq_core] at h
  have hbwf : (baseline.getD (Tensor.zeros input.shape)).WellFormed := by
    cases baseline with
    | none => simp [Option.getD, Tensor.zeros, Tensor.WellFormed]
    | some b => simpa using hwfb b rfl
  rcases explainCore_cases score grad input (baseline.getD (Tensor.zeros input.shape))
      target steps m with
    ⟨h1, heqc⟩ | ⟨h1, h2, heqc⟩ | ⟨h1, h2, f, hcg, heqc⟩ | ⟨h1, h2, gs, hcg, heqc⟩ <;>
    rw [heqc] at h
  · simp at h
  · simp at h
  · simp at h
  · simp only [Except.ok.injEq] at h
    subst h
    have hblen : (baseline.getD (Tensor.zeros input.shape)).data.length
        = input.data.length := by
      unfold Tensor.WellFormed at hbwf hwf
      rw [hbwf, ← h1]
      exact hwf.symm
    have hps : ∀ p ∈ (m.points steps).map
        (fun p => interpolate (baseline.getD (Tensor.zeros input.shape)) input p.1),
        p.data.length = input.data.length := by
      intro p hp
      rw [List.mem_map] at hp
      obtain ⟨q, hq, rfl⟩ := hp
      exact length_interpolate _ _ _ hblen
    have hglen : ∀ g ∈ gs, g.data.length = input.data.length :=
      collectGrads_length (grad target) _ gs input.data.length hps
        (fun p _ q hq => hcontract p q hq) hcg
    have hwlen : (weightedGradSum (Tensor.zerosLike input)
        ((m.points steps).map Prod.snd) gs).data.length = input.data.length := by
      have hl := weightedGradSum_length (Tensor.zerosLike input)
        ((m.points steps).map Prod.snd) gs (by simpa [Tensor.zerosLike] using hglen)
      simpa [Tensor.zerosLike] using hl
    have hin : input.data[j]? = some input.data[j] := List.getElem?_eq_getElem hj
    have hsub : (input.sub (baseline.getD (Tensor.zeros input.shape))).data[j]?
        = some 0 := by
      show (List.zipWith (· - ·) input.data
        (baseline.getD (Tensor.zeros input.shape)).data)[j]? = some 0
      rw [List.getElem?_zipWith, ← heq, hin]
      simp
    have hw : (weightedGradSum (Tensor.zerosLike input)
        ((m.points steps).map Prod.snd) gs).data[j]?
        = some ((weightedGradSum (Tensor.zerosLike input)
            ((m.points steps).map Prod.snd) gs).data.get ⟨j, by rw [hwlen]; exact hj⟩) := by
      rw [List.getElem?_eq_getElem (by rw [hwlen]; exact hj)]
      rfl
    show (List.zipWith (· * ·)
        (weightedGradSum (Tensor.zerosLike input) ((m.points steps).map Prod.snd) gs).data
        (input.sub (baseline.getD (Tensor.zeros input.shape))).data)[j]? = some 0
    rw [List.getElem?_zipWith, hsub, hw]
    simp

/-- Witness instance of the zero-attribution-at-unchanged-positions property:
position 0 of the input equals the baseline there, and its attribution is 0. -/
theorem explain_zero_attribution_at_unchanged_witness :
    (Tensor.mk [2,2] [0,2,3,0]).data[0]? = some 0 :=
  explain_zero_attribution_at_unchanged sumScore onesGrad (Tensor.mk [2,2] [1,2,3,4])
    (some (Tensor.mk [2,2] [1,0,0,4])) 0 2 uniform (by rfl)
    (by intro b hb; simp only [Option.mem_def, Option.some.injEq] at hb; subst hb; rfl)
    (by intro p q hq
        simp only [onesGrad, Except.ok.injEq] at hq
        subst hq
        simp)
    (Explanation.mk (Tensor.mk [2,2] [0,2,3,0]) 0 (Tensor.mk [2,2] [1,2,3,4])
      (Tensor.mk [2,2] [1,0,0,4]) 0)
    (by simp [explain, explainCore, uniform, uniformPoints, List.range_succ, interpolate,
        Tensor.add, Tensor.sub, Tensor.smul, Tensor.zeros, Tensor.zerosLike, Tensor.hadamard,
        Tensor.sum, collectGrads, weightedGradSum, sumScore, onesGrad]
        try norm_num)
    0 (by norm_num) rfl

end IG
